import Mathlib

/-!
Verification of the semantic-HTML audit engine (`audit_logic` in `src/App.py`).

The engine parses an HTML document with BeautifulSoup, strips
script/style/noscript/svg subtrees, runs a fixed battery of structural
checks over the parsed tree, and returns `(final_score, issues, headings)`.

We embed the parsed document as a forest of `Node`s (BeautifulSoup's tree
after parsing) and translate `audit_logic` and its helpers function by
function.  Multi-valued attributes (`class`) are stored as the token list
BeautifulSoup produces; single-valued attributes are stored as one-element
lists, so joining with spaces recovers the raw value.
-/

/-- A parsed markup node: an element with tag name, attribute map
(attribute name → value token list, as BeautifulSoup stores them,
in insertion order) and children, or a text node. -/
inductive Node : Type where
  | elem (tag : String) (attrs : List (String × List String)) (children : List Node)
  | text (s : String)

/-- Tag name of an element (`tag.name`); `""` for a text node
(the engine only asks for names of elements). -/
def Node.name : Node → String
  | Node.elem t _ _ => t
  | Node.text _ => ""

/-- Attribute map of an element (`tag.attrs`). -/
def Node.attrMap : Node → List (String × List String)
  | Node.elem _ a _ => a
  | Node.text _ => []

/-- Child list of an element. -/
def Node.kids : Node → List Node
  | Node.elem _ _ cs => cs
  | Node.text _ => []

/-- `tag.get(k)` / `tag[k]` for single-valued attributes: the value with
its tokens joined by single spaces, or `none` when the attribute is absent. -/
def attrVal (n : Node) (k : String) : Option String :=
  (n.attrMap.lookup k).map (String.intercalate " ")

/-- `tag.get('class', [])`: the class token list, `[]` when absent. -/
def classList (n : Node) : List String :=
  (n.attrMap.lookup "class").getD []

mutual
/-- All element nodes of a subtree in document (pre-)order: the node
itself, then its descendants.  `soup.find_all(...)` returns exactly the
matching members of this traversal, in this order. -/
def elemsOf : Node → List Node
  | Node.elem t a cs => Node.elem t a cs :: elemsOfList cs
  | Node.text _ => []
/-- All element nodes of a forest in document (pre-)order. -/
def elemsOfList : List Node → List Node
  | [] => []
  | n :: ns => elemsOf n ++ elemsOfList ns
end

/-- `soup.find_all(t)`: all elements of the forest named `t`, document order. -/
def findAllNamed (t : String) (roots : List Node) : List Node :=
  (elemsOfList roots).filter (fun n => n.name == t)

/-- Tags whose subtrees `audit_logic` decomposes before analysis
(`soup(["script", "style", "noscript", "svg"])`, line 98). -/
def bannedTags : List String := ["script", "style", "noscript", "svg"]

mutual
/-- `script.decompose()` sweep over one node: drop the node (and its whole
subtree) if its tag is in `bannedTags`, otherwise keep it and sweep its
children. -/
def stripBannedN : Node → List Node
  | Node.elem t a cs =>
      if t ∈ bannedTags then [] else [Node.elem t a (stripBannedL cs)]
  | Node.text s => [Node.text s]
/-- `script.decompose()` sweep over a forest. -/
def stripBannedL : List Node → List Node
  | [] => []
  | n :: ns => stripBannedN n ++ stripBannedL ns
end

mutual
/-- The raw descendant text-node strings of a node, in document order
(the strings BeautifulSoup's `get_text` concatenates). -/
def textPiecesN : Node → List String
  | Node.elem _ _ cs => textPiecesL cs
  | Node.text s => [s]
/-- The raw descendant text-node strings of a forest, in document order. -/
def textPiecesL : List Node → List String
  | [] => []
  | n :: ns => textPiecesN n ++ textPiecesL ns
end

/-- Python's `str.strip()`: drop leading and trailing whitespace. -/
def trimChars (s : String) : String :=
  ⟨((s.data.dropWhile Char.isWhitespace).reverse.dropWhile Char.isWhitespace).reverse⟩

/-- Python's `str.lower()`. -/
def lowerChars (s : String) : String :=
  ⟨s.data.map Char.toLower⟩

/-- `tag.get_text(" ", strip=True)`: each descendant string stripped of
surrounding whitespace, empties dropped, joined with single spaces. -/
def getTextStripped (n : Node) : String :=
  String.intercalate " " (((textPiecesN n).map trimChars).filter (fun s => !(s == "")))

/-- `get_snippet` (lines 69-92): opening tag with attributes, a 50-character
text preview (ellipsis-suffixed when nonempty), and a closing tag. -/
def get_snippet (tag : Node) : String :=
  let attrs := tag.attrMap.map (fun kv => kv.1 ++ "=\"" ++ String.intercalate " " kv.2 ++ "\"")
  let attr_str0 := String.intercalate " " attrs
  let attr_str := if attr_str0 = "" then attr_str0 else " " ++ attr_str0
  let open_tag := "<" ++ tag.name ++ attr_str ++ ">"
  let text0 := (getTextStripped tag).take 50
  let text := if text0 = "" then text0 else text0 ++ "..."
  open_tag ++ "\n  " ++ text ++ "\n</" ++ tag.name ++ ">"

/-- One detected issue, exactly the dict `audit_logic` appends to `issues`. -/
structure Finding : Type where
  Severity : String
  Title : String
  Desc : String
  Fix : String
  Snippet : String
  Ref : String
deriving DecidableEq

/-- The "Missing H1 Tag" finding (lines 109-116). -/
def missingH1Finding : Finding :=
  { Severity := "Critical"
    Title := "Missing H1 Tag"
    Desc := "Search engines rely on the H1 tag to understand the primary topic of the page."
    Fix := "Add an <h1> tag containing your target keyword."
    Snippet := "<html>"
    Ref := "Google SEO Starter Guide" }

/-- The "Multiple H1 Tags" finding (lines 119-126): `n` is `len(h1s)`,
`snd` is `h1s[1]`, the second H1 in document order. -/
def multipleH1Finding (n : Nat) (snd : Node) : Finding :=
  { Severity := "High"
    Title := "Multiple H1 Tags (" ++ toString n ++ " found)"
    Desc := "While HTML5 allows this, it dilutes keyword focus. Best practice is one H1 per page."
    Fix := "Keep the main title as <h1>, change others to <h2>."
    Snippet := get_snippet snd
    Ref := "MDN Web Docs" }

/-- The "Skipped Heading Level" finding (lines 136-143): emitted at heading
`h` when the level jumps from `prev` to `curr` with `curr > prev + 1`. -/
def skippedLevelFinding (prev curr : Nat) (h : Node) : Finding :=
  { Severity := "Medium"
    Title := "Skipped Heading Level (<h" ++ toString prev ++ "> → <h" ++ toString curr ++ ">)"
    Desc := "The structure jumps directly from H" ++ toString prev ++ " to H" ++ toString curr ++
      ", skipping H" ++ toString (prev + 1) ++ "."
    Fix := "Change this <" ++ h.name ++ "> to <h" ++ toString (prev + 1) ++ ">."
    Snippet := get_snippet h
    Ref := "WCAG 1.3.1" }

/-- The "Generic Container for Main Content" finding (lines 165-172). -/
def genericContainerFinding (top : Node) (count : Nat) : Finding :=
  { Severity := "Critical"
    Title := "Generic Container for Main Content"
    Desc := "The element containing the bulk of your text (" ++ toString count ++
      " paragraphs) is a generic <" ++ top.name ++ ">."
    Fix := "Change this <" ++ top.name ++ "> to <main> or <article>."
    Snippet := get_snippet top
    Ref := "HTML5 Specification" }

/-- The "Generic <div> used for Navigation" finding (lines 182-189). -/
def fakeNavFinding (d : Node) : Finding :=
  { Severity := "Medium"
    Title := "Generic <div> used for Navigation"
    Desc := "Found a div with 'nav'/'menu' class but using generic tags."
    Fix := "Change this <div> to <nav>."
    Snippet := get_snippet d
    Ref := "WAI-ARIA Landmarks" }

/-- The "Images Missing Alt Text" finding (lines 199-206): `n` is
`len(missing_alt)`, `first` is `missing_alt[0]`. -/
def missingAltFinding (n : Nat) (first : Node) : Finding :=
  { Severity := "High"
    Title := toString n ++ " Images Missing Alt Text"
    Desc := "Images must have a text alternative for screen readers and SEO indexing."
    Fix := "Add alt='description' attributes."
    Snippet := get_snippet first
    Ref := "WCAG 1.1.1" }

/-- The "Anchors used as Buttons" finding (lines 214-221): `n` is
`len(bad_links)`, `first` is `bad_links[0]`. -/
def anchorButtonsFinding (n : Nat) (first : Node) : Finding :=
  { Severity := "Low"
    Title := "Anchors used as Buttons"
    Desc := "Found " ++ toString n ++
      " <a> tags that don't navigate anywhere (href='#' or 'javascript')."
    Fix := "Use <button> tags for actions that don't change the URL."
    Snippet := get_snippet first
    Ref := "MDN: Button vs Anchor" }

/-- Rule A1 (lines 108-127): zero H1s → Missing-H1 finding, deduct 25;
more than one H1 → one aggregate Multiple-H1 finding showing the count and
the second H1, deduct 10.  Returns `(issues, deduction)`. -/
def h1Check : List Node → List Finding × Int
  | [] => ([missingH1Finding], 25)
  | [_] => ([], 0)
  | _ :: snd :: rest => ([multipleH1Finding (rest.length + 2) snd], 10)

/-- The tag names matched by `re.compile('^h[1-6]$')` (line 106). -/
def isHeadingName (t : String) : Bool :=
  t == "h1" || t == "h2" || t == "h3" || t == "h4" || t == "h5" || t == "h6"

/-- `int(h.name[1])` (line 133): the second character of the tag name read
as a digit — for names matching `^h[1-6]$` this is the level. -/
def headingLevel (h : Node) : Nat :=
  match h.name.data with
  | _ :: c :: _ => c.toNat - '0'.toNat
  | _ => 0

/-- Rule A2, heading hierarchy (lines 130-145): one forward pass over the
headings carrying `prev_level`; a Medium finding and a 5-point deduction
whenever `curr_level > prev_level + 1 and prev_level != 0`; `prev_level`
is updated after every heading.  (The `if headings:` guard in the source
is redundant: an empty pass emits nothing.) -/
def headingPass (prev : Nat) : List Node → List Finding × Int
  | [] => ([], 0)
  | h :: rest =>
      let curr := headingLevel h
      let tail := headingPass curr rest
      if curr > prev + 1 ∧ prev ≠ 0 then
        (skippedLevelFinding prev curr h :: tail.1, 5 + tail.2)
      else
        tail

/-- `len(tag.find_all('p'))` (line 155): the number of `<p>` descendants,
at any depth.  (The source also computes the direct-child count
`p_count` on line 153 but never uses it.) -/
def pDeepCount (n : Node) : Nat :=
  ((elemsOfList n.kids).filter (fun m => m.name == "p")).length

/-- The candidate list of lines 151-156: every `div`/`section`/`main`/`article`
element in document order, paired with its deep `<p>` count. -/
def contentCandidates (soup : List Node) : List (Node × Nat) :=
  ((elemsOfList soup).filter
      (fun n => decide (n.name ∈ ["div", "section", "main", "article"]))).map
    (fun n => (n, pDeepCount n))

/-- One step of a stable descending insertion sort on the paragraph count:
the inserted element passes over every element with a strictly smaller
count and lands after all elements with a greater-or-equal count. -/
def insertByCountDesc (x : Node × Nat) : List (Node × Nat) → List (Node × Nat)
  | [] => [x]
  | y :: ys => if y.2 < x.2 then x :: y :: ys else y :: insertByCountDesc x ys

/-- `candidates.sort(key=lambda x: x[1], reverse=True)` (line 159): Python's
`list.sort` is stable, so equal counts keep document order; rendered as a
stable insertion sort. -/
def sortByCountDesc (l : List (Node × Nat)) : List (Node × Nat) :=
  l.foldl (fun acc x => insertByCountDesc x acc) []

/-- Rule B1, main-content wrapper (lines 149-173): take the head of the
descending-sorted candidate list; if its deep `<p>` count exceeds 3 and it
is not a `<main>` or `<article>`, emit one Critical finding, deduct 15. -/
def contentCheck (soup : List Node) : List Finding × Int :=
  match (sortByCountDesc (contentCandidates soup)).head? with
  | none => ([], 0)
  | some (top, count) =>
      if count > 3 ∧ ¬(top.name = "main" ∨ top.name = "article") then
        ([genericContainerFinding top count], 15)
      else ([], 0)

/-- Needle-at-front test on character lists. -/
def listStartsWith : List Char → List Char → Bool
  | [], _ => true
  | _ :: _, [] => false
  | c :: cs, d :: ds => c == d && listStartsWith cs ds

/-- Occurrence test on character lists. -/
def listHasSub (needle : List Char) : List Char → Bool
  | [] => listStartsWith needle []
  | d :: ds => listStartsWith needle (d :: ds) || listHasSub needle ds

/-- Python's `needle in hay` substring test. -/
def strHasSub (needle hay : String) : Bool :=
  listHasSub needle.toList hay.toList

/-- Line 178-179: the div's class tokens joined with spaces and lower-cased
contain `"nav"` or `"menu"` as a substring. -/
def navKeywordHit (d : Node) : Bool :=
  let classes := lowerChars (String.intercalate " " (classList d))
  strHasSub "nav" classes || strHasSub "menu" classes

mutual
/-- Every element of a subtree paired with whether it sits below a `<nav>`
ancestor (`div.find_parent('nav')` is truthy), document order. -/
def elemsNavCtx (inNav : Bool) : Node → List (Node × Bool)
  | Node.elem t a cs =>
      (Node.elem t a cs, inNav) :: elemsNavCtxList (inNav || t == "nav") cs
  | Node.text _ => []
/-- Every element of a forest with its `<nav>`-ancestor flag, document order. -/
def elemsNavCtxList (inNav : Bool) : List Node → List (Node × Bool)
  | [] => []
  | n :: ns => elemsNavCtx inNav n ++ elemsNavCtxList inNav ns
end

/-- The loop body of lines 177-191: walk the divs in document order; at a
div whose classes hit the nav/menu keywords, skip it when it already lies
inside a `<nav>`, otherwise emit the finding, deduct 5, and `break`. -/
def navScan : List (Node × Bool) → List Finding × Int
  | [] => ([], 0)
  | (d, inNav) :: rest =>
      if navKeywordHit d then
        if inNav then navScan rest
        else ([fakeNavFinding d], 5)
      else navScan rest

/-- Rule B2, fake navigation (lines 175-191): scan `soup.find_all('div')`
with the `<nav>`-ancestor flag. -/
def navCheck (soup : List Node) : List Finding × Int :=
  navScan ((elemsNavCtxList false soup).filter (fun p => p.1.name == "div"))

/-- `not img.get('alt')` (line 197): the attribute is absent or its value
is falsy (the empty string). -/
def altMissing (n : Node) : Bool :=
  match attrVal n "alt" with
  | none => true
  | some v => v == ""

/-- Rule C1, alt text (lines 196-207): one aggregate High finding showing
the count and the first offender, deduct 10. -/
def altCheck (soup : List Node) : List Finding × Int :=
  match (findAllNamed "img" soup).filter altMissing with
  | [] => ([], 0)
  | m :: ms => ([missingAltFinding (ms.length + 1) m], 10)

/-- `a['href'] in ['#', 'javascript:void(0)']` (line 212). -/
def badHref (n : Node) : Bool :=
  match attrVal n "href" with
  | some v => v == "#" || v == "javascript:void(0)"
  | none => false

/-- Rule C2, anchors as buttons (lines 210-222): among the anchors that
carry an `href` attribute (`find_all('a', href=True)`), those whose href is
exactly `#` or `javascript:void(0)` produce one aggregate Low finding
showing the count and the first offender, deduct 5. -/
def anchorCheck (soup : List Node) : List Finding × Int :=
  match ((findAllNamed "a" soup).filter (fun a => (attrVal a "href").isSome)).filter badHref with
  | [] => ([], 0)
  | b :: bs => ([anchorButtonsFinding (bs.length + 1) b], 5)

/-- `audit_logic` (lines 94-225): strip script/style/noscript/svg subtrees,
run the rules in source order accumulating issues and deductions, and
return `(max(0, 100 - score_deductions), issues, headings)`.  The input is
the parsed forest BeautifulSoup produces for the document. -/
def audit_logic (roots : List Node) : Int × List Finding × List Node :=
  let soup := stripBannedL roots
  let h1s := findAllNamed "h1" soup
  let headings := (elemsOfList soup).filter (fun n => isHeadingName n.name)
  let a := h1Check h1s
  let b := headingPass 0 headings
  let c := contentCheck soup
  let d := navCheck soup
  let e := altCheck soup
  let f := anchorCheck soup
  (max 0 (100 - (a.2 + b.2 + c.2 + d.2 + e.2 + f.2)),
   a.1 ++ b.1 ++ c.1 ++ d.1 ++ e.1 ++ f.1,
   headings)

/-- The pairs `(prev_level, heading)` visited by the hierarchy pass of
lines 130-145, starting from `prev`. -/
def prevPairs (prev : Nat) : List Node → List (Nat × Node)
  | [] => []
  | h :: t => (prev, h) :: prevPairs (headingLevel h) t

/-- The firing condition of the hierarchy rule at a visited
`(prev_level, heading)` pair: `curr_level > prev_level + 1 and prev_level != 0`. -/
def skipCond (pc : Nat × Node) : Bool :=
  decide (headingLevel pc.2 > pc.1 + 1 ∧ pc.1 ≠ 0)

/-- The finding the hierarchy rule emits at a visited pair. -/
def mkSkipAt (pc : Nat × Node) : Finding :=
  skippedLevelFinding pc.1 (headingLevel pc.2) pc.2

/-- The firing condition of the hierarchy rule stated on a consecutive
heading pair `(h, h')`: the level jumps by more than one from a nonzero
level. -/
def skipPairHit (ab : Node × Node) : Bool :=
  decide (headingLevel ab.2 > headingLevel ab.1 + 1 ∧ headingLevel ab.1 ≠ 0)

/-- The finding the hierarchy rule emits at a consecutive heading pair:
a Medium skipped-level finding referencing the second (current) heading. -/
def mkSkipPair (ab : Node × Node) : Finding :=
  skippedLevelFinding (headingLevel ab.1) (headingLevel ab.2) ab.2

/-- Keep the better of an accumulator and the next candidate: the candidate
replaces the accumulator only with a strictly larger paragraph count. -/
def pickMax (b : Option (Node × Nat)) (x : Node × Nat) : Option (Node × Nat) :=
  match b with
  | none => some x
  | some y => if y.2 < x.2 then some x else some y

/-- The specification's selection rule for the primary-content container:
the candidate with the maximum paragraph count, the first in document
order winning ties. -/
def firstMaxByCount (l : List (Node × Nat)) : Option (Node × Nat) :=
  l.foldl pickMax none

/-- Eligibility of a scanned div for the fake-navigation finding: its
classes hit the nav/menu keywords and it has no `<nav>` ancestor. -/
def navEligible (p : Node × Bool) : Bool :=
  navKeywordHit p.1 && !p.2

/-- Deduction weight of a finding: the per-rule lookup table of the scorer.
Missing H1 deducts 25, the other Critical finding (generic main-content
container) 15, High findings 10, Medium and Low findings 5 — matching the
`score_deductions +=` constants of `audit_logic`. -/
def findingWeight (f : Finding) : Int :=
  if f.Severity = "Critical" then
    (if f.Title = "Missing H1 Tag" then 25 else 15)
  else if f.Severity = "High" then 10
  else 5

/-- Modelled from the spec: the metric the specification prescribes for the
primary-content-container rule — the total descendant paragraph-text
length of a container, i.e. the summed text length of its `<p>`
descendants.  (The code instead counts the `<p>` descendants; this
definition exists to compare the two.) -/
def specParagraphTextLength (n : Node) : Nat :=
  (((elemsOfList n.kids).filter (fun m => m.name == "p")).map
    (fun p => (getTextStripped p).length)).sum

/-- `soup.find_all(re.compile('^h[1-6]$'))` (line 106): the headings of a
forest in document order. -/
def headingsOf (roots : List Node) : List Node :=
  (elemsOfList roots).filter (fun n => isHeadingName n.name)

/-! ### Concrete test documents -/

/-- `<h1>a</h1><h3>b</h3><h2>c</h2>` — the spec's skipped-level example. -/
def docH1H3H2 : List Node :=
  [Node.elem "h1" [] [Node.text "a"],
   Node.elem "h3" [] [Node.text "b"],
   Node.elem "h2" [] [Node.text "c"]]

/-- Three `<h1>` elements with distinct ids. -/
def docThreeH1 : List Node :=
  [Node.elem "h1" [("id", ["a"])] [Node.text "first"],
   Node.elem "h1" [("id", ["b"])] [Node.text "second"],
   Node.elem "h1" [("id", ["c"])] [Node.text "third"]]

/-- A single `<h1>` and nothing else — in particular no `<main>` element. -/
def docOnlyH1 : List Node :=
  [Node.elem "h1" [] [Node.text "Title"]]

/-- A `<div>` holding four one-character paragraphs. -/
def tinyParasDiv : Node :=
  Node.elem "div" []
    [Node.elem "p" [] [Node.text "a"], Node.elem "p" [] [Node.text "b"],
     Node.elem "p" [] [Node.text "c"], Node.elem "p" [] [Node.text "d"]]

/-- An `<h1>` and a `<div>` holding four one-character paragraphs: 4 > 3
paragraphs but only 4 characters of paragraph text. -/
def docTinyParas : List Node :=
  [Node.elem "h1" [] [Node.text "T"], tinyParasDiv]

/-- An anchor whose `href` attribute is present but empty. -/
def emptyHrefAnchor : Node :=
  Node.elem "a" [("href", [""])] [Node.text "x"]

/-- An `<h1>` and an anchor whose `href` attribute is present but empty. -/
def docEmptyHref : List Node :=
  [Node.elem "h1" [] [Node.text "T"], emptyHrefAnchor]

/-- A `<div class="main-nav">` holding a link. -/
def mainNavDiv : Node :=
  Node.elem "div" [("class", ["main-nav"])] [Node.elem "a" [] [Node.text "Home"]]

/-- Two nav-keyword divs, no `<nav>` element anywhere: the spec's
implied-navigation scenario. -/
def docFakeNav : List Node :=
  [Node.elem "h1" [] [Node.text "T"],
   mainNavDiv,
   Node.elem "div" [("class", ["menu"])] []]

/-! ## Generic list helpers -/

/-- `elemsOfList` distributes over append. -/
theorem elemsOfList_append (l₁ l₂ : List Node) :
    elemsOfList (l₁ ++ l₂) = elemsOfList l₁ ++ elemsOfList l₂ := by
  induction l₁ with
  | nil => rfl
  | cons n ns ih => simp [elemsOfList, ih]

/-- Summing a function that is constant on a list. -/
theorem sum_map_const_of_mem {α : Type} (l : List α) (g : α → Int) (c : Int)
    (h : ∀ x ∈ l, g x = c) : (l.map g).sum = l.length * c := by
  induction l with
  | nil => simp
  | cons a t ih =>
      simp only [List.map_cons, List.sum_cons, List.length_cons]
      rw [h a (by simp), ih (fun x hx => h x (by simp [hx]))]
      push_cast
      ring

/-! ## Structure of the stripped tree -/

mutual
/-- After the decompose sweep, no element of any surviving subtree carries a
banned tag. -/
theorem stripBannedN_free (n : Node) :
    ∀ m ∈ elemsOfList (stripBannedN n), ¬ (m.name ∈ bannedTags) := by
  match n with
  | Node.text s => intro m hm; simp [stripBannedN, elemsOfList, elemsOf] at hm
  | Node.elem t a cs =>
      intro m hm
      by_cases ht : t ∈ bannedTags
      · simp [stripBannedN, ht, elemsOfList] at hm
      · simp only [stripBannedN, if_neg ht, elemsOfList, elemsOf, List.append_nil,
          List.mem_cons] at hm
        rcases hm with hm | hm
        · subst hm; simpa [Node.name] using ht
        · exact stripBannedL_free cs m hm
/-- After the decompose sweep, no element of the surviving forest carries a
banned tag. -/
theorem stripBannedL_free (l : List Node) :
    ∀ m ∈ elemsOfList (stripBannedL l), ¬ (m.name ∈ bannedTags) := by
  match l with
  | [] => intro m hm; simp [stripBannedL, elemsOfList] at hm
  | n :: ns =>
      intro m hm
      rw [stripBannedL, elemsOfList_append, List.mem_append] at hm
      rcases hm with hm | hm
      · exact stripBannedN_free n m hm
      · exact stripBannedL_free ns m hm
end

mutual
/-- Forgetting the `<nav>`-ancestor flags of the context traversal gives back
the plain document-order element traversal. -/
theorem elemsNavCtx_fst (b : Bool) (n : Node) :
    (elemsNavCtx b n).map Prod.fst = elemsOf n := by
  match n with
  | Node.text s => rfl
  | Node.elem t a cs =>
      simp only [elemsNavCtx, elemsOf, List.map_cons]
      rw [elemsNavCtxList_fst]
/-- Forest version of `elemsNavCtx_fst`. -/
theorem elemsNavCtxList_fst (b : Bool) (l : List Node) :
    (elemsNavCtxList b l).map Prod.fst = elemsOfList l := by
  match l with
  | [] => rfl
  | n :: ns =>
      simp only [elemsNavCtxList, elemsOfList, List.map_append]
      rw [elemsNavCtx_fst, elemsNavCtxList_fst]
end

/-- Filtering a mapped list is mapping the filtered list. -/
theorem filter_map_comm {α β : Type} (g : α → β) (p : β → Bool) (l : List α) :
    (l.map g).filter p = (l.filter (fun a => p (g a))).map g := by
  induction l with
  | nil => rfl
  | cons a t ih =>
      by_cases h : p (g a) <;> simp [List.filter_cons, h, ih]

/-! ## Rule characterizations -/

/-- The findings of the hierarchy pass: exactly one skipped-level finding
for every visited `(prev, heading)` pair with a jump of more than one
level from a nonzero previous level. -/
theorem headingPass_fst (prev : Nat) (hs : List Node) :
    (headingPass prev hs).1 = ((prevPairs prev hs).filter skipCond).map mkSkipAt := by
  induction hs generalizing prev with
  | nil => rfl
  | cons h t ih =>
      simp only [headingPass, prevPairs]
      by_cases hc : headingLevel h > prev + 1 ∧ prev ≠ 0
      · have hpa : skipCond (prev, h) = true := decide_eq_true hc
        rw [if_pos hc, List.filter_cons_of_pos hpa, List.map_cons]
        exact congrArg (skippedLevelFinding prev (headingLevel h) h :: ·) (ih _)
      · have hpa : ¬ skipCond (prev, h) = true := fun hd => hc (of_decide_eq_true hd)
        rw [if_neg hc, List.filter_cons_of_neg hpa]
        exact ih _

/-- The hierarchy pass deducts 5 points per finding. -/
theorem headingPass_snd (prev : Nat) (hs : List Node) :
    (headingPass prev hs).2 = 5 * ((headingPass prev hs).1.length : Int) := by
  induction hs generalizing prev with
  | nil => rfl
  | cons h t ih =>
      simp only [headingPass]
      by_cases hc : headingLevel h > prev + 1 ∧ prev ≠ 0
      · simp only [if_pos hc, List.length_cons]
        rw [ih]
        push_cast
        ring
      · simp only [if_neg hc]
        exact ih _

/-- The visited pairs are the consecutive pairs of the heading list, with
`prev` prepended as the level before the first heading. -/
theorem prevPairs_eq_zip (prev : Nat) (hs : List Node) :
    prevPairs prev hs = List.zip (prev :: hs.map headingLevel) hs := by
  induction hs generalizing prev with
  | nil => rfl
  | cons h t ih => simp only [prevPairs, List.map_cons, List.zip_cons_cons, ih]

/-- Hierarchy findings as a function of consecutive heading pairs: starting
from `prev_level = 0`, a finding appears exactly at the consecutive pairs
`(h, h')` with `level h' > level h + 1` (and `level h ≠ 0`), and it
references the second heading of the pair. -/
theorem headingPass_zero_zip (hs : List Node) :
    (headingPass 0 hs).1 = ((hs.zip hs.tail).filter skipPairHit).map mkSkipPair := by
  match hs with
  | [] => rfl
  | h :: t =>
      rw [headingPass_fst, prevPairs_eq_zip]
      have hz : List.zip ((h :: t).map headingLevel) t =
          ((h :: t).zip t).map (fun ab => (headingLevel ab.1, ab.2)) := by
        rw [List.zip_map_left]
        rfl
      have hpa : ¬ skipCond (0, h) = true :=
        fun hd => absurd (of_decide_eq_true hd).2 (by simp)
      rw [List.map_cons, List.zip_cons_cons, List.filter_cons_of_neg hpa,
        show List.zip (headingLevel h :: t.map headingLevel) t =
          List.zip ((h :: t).map headingLevel) t from rfl,
        hz, filter_map_comm, List.map_map, List.tail_cons]
      rfl

/-- The fake-navigation scan stops at the first eligible div (keyword hit,
no `<nav>` ancestor) and emits exactly its finding; with no eligible div it
emits nothing. -/
theorem navScan_eq (l : List (Node × Bool)) :
    navScan l =
      match l.find? navEligible with
      | none => ([], 0)
      | some p => ([fakeNavFinding p.1], 5) := by
  induction l with
  | nil => rfl
  | cons x t ih =>
      rcases x with ⟨d, inNav⟩
      by_cases h1 : navKeywordHit d
      · cases inNav with
        | true =>
            have he : ¬ navEligible (d, true) = true := by simp [navEligible]
            rw [List.find?_cons_of_neg t he]
            simpa [navScan, h1] using ih
        | false =>
            have he : navEligible (d, false) = true := by simp [navEligible, h1]
            rw [List.find?_cons_of_pos t he]
            simp [navScan, h1]
      · have he : ¬ navEligible (d, inNav) = true := by simp [navEligible, h1]
        rw [List.find?_cons_of_neg t he]
        simpa [navScan, h1] using ih

/-- Head of one descending insertion: the earlier head survives unless the
inserted element has a strictly larger count. -/
theorem insertByCountDesc_head (x : Node × Nat) (l : List (Node × Nat)) :
    (insertByCountDesc x l).head? = pickMax l.head? x := by
  cases l with
  | nil => rfl
  | cons y ys =>
      by_cases h : y.2 < x.2 <;> simp [insertByCountDesc, pickMax, h]

/-- Head of the insertion-sort fold, as a `pickMax` fold over the input. -/
theorem foldl_insert_head (l : List (Node × Nat)) (acc : List (Node × Nat)) :
    (l.foldl (fun a x => insertByCountDesc x a) acc).head? =
      l.foldl pickMax acc.head? := by
  induction l generalizing acc with
  | nil => rfl
  | cons x t ih =>
      simp only [List.foldl_cons]
      rw [ih, insertByCountDesc_head]

/-- The head of the stable descending sort is the first candidate (in
document order) with the maximal paragraph count. -/
theorem sortByCountDesc_head (l : List (Node × Nat)) :
    (sortByCountDesc l).head? = firstMaxByCount l :=
  foldl_insert_head l []

/-- Whatever the `pickMax` fold returns was the seed or a list member. -/
theorem foldl_pickMax_mem (l : List (Node × Nat)) (b : Option (Node × Nat))
    (p : Node × Nat) (h : l.foldl pickMax b = some p) : b = some p ∨ p ∈ l := by
  induction l generalizing b with
  | nil => exact Or.inl h
  | cons x t ih =>
      rcases ih (pickMax b x) h with h' | h'
      · cases b with
        | none =>
            right
            have hx : x = p := Option.some.inj h'
            exact hx ▸ List.mem_cons_self x t
        | some y =>
            by_cases hy : y.2 < x.2
            · right
              have hx : x = p := Option.some.inj (by simpa [pickMax, hy] using h')
              exact hx ▸ List.mem_cons_self x t
            · left
              simpa [pickMax, hy] using h'
      · exact Or.inr (List.mem_cons_of_mem x h')

/-- The first-maximum selection only returns members of the candidate list. -/
theorem firstMaxByCount_mem {l : List (Node × Nat)} {p : Node × Nat}
    (h : firstMaxByCount l = some p) : p ∈ l := by
  rcases foldl_pickMax_mem l none p h with h' | h'
  · exact absurd h' (by simp)
  · exact h'

/-- The main-content rule, with the sorted head replaced by the
specification's first-maximum selection. -/
theorem contentCheck_shape (s : List Node) :
    contentCheck s =
      (match firstMaxByCount (contentCandidates s) with
        | none => ([], 0)
        | some tc =>
            if tc.2 > 3 ∧ ¬(tc.1.name = "main" ∨ tc.1.name = "article") then
              ([genericContainerFinding tc.1 tc.2], 15)
            else ([], 0)) := by
  unfold contentCheck
  rw [sortByCountDesc_head]
  rcases firstMaxByCount (contentCandidates s) with _ | ⟨top, count⟩ <;> rfl

/-! ## Per-rule finding shapes -/

/-- Every finding of the H1 rule is the Missing-H1 finding (empty H1 list)
or the aggregate Multiple-H1 finding referencing the second H1. -/
theorem h1Check_mem {l : List Node} {f : Finding} (hf : f ∈ (h1Check l).1) :
    (l = [] ∧ f = missingH1Finding) ∨
    (∃ x y t, l = x :: y :: t ∧ f = multipleH1Finding (t.length + 2) y) := by
  match l with
  | [] =>
      simp only [h1Check, List.mem_singleton] at hf
      exact Or.inl ⟨rfl, hf⟩
  | [x] => simp [h1Check] at hf
  | x :: y :: t =>
      simp only [h1Check, List.mem_singleton] at hf
      exact Or.inr ⟨x, y, t, rfl, hf⟩

/-- Every finding of the hierarchy rule is a skipped-level finding at a
visited pair whose heading is in the heading list. -/
theorem headingPass_mem {prev : Nat} {hs : List Node} {f : Finding}
    (hf : f ∈ (headingPass prev hs).1) :
    ∃ p c h, h ∈ hs ∧ f = skippedLevelFinding p c h := by
  induction hs generalizing prev with
  | nil => simp [headingPass] at hf
  | cons h t ih =>
      simp only [headingPass] at hf
      by_cases hc : headingLevel h > prev + 1 ∧ prev ≠ 0
      · rw [if_pos hc] at hf
        rcases List.mem_cons.mp hf with hf | hf
        · exact ⟨prev, headingLevel h, h, List.mem_cons_self h t, hf⟩
        · rcases ih hf with ⟨p, c, h', hm, he⟩
          exact ⟨p, c, h', List.mem_cons_of_mem h hm, he⟩
      · rw [if_neg hc] at hf
        rcases ih hf with ⟨p, c, h', hm, he⟩
        exact ⟨p, c, h', List.mem_cons_of_mem h hm, he⟩

/-- Every finding of the main-content rule is the generic-container finding
for a candidate that won the selection and met the firing condition. -/
theorem contentCheck_mem {s : List Node} {f : Finding} (hf : f ∈ (contentCheck s).1) :
    ∃ tc, tc ∈ contentCandidates s ∧ tc.2 > 3 ∧
      ¬(tc.1.name = "main" ∨ tc.1.name = "article") ∧
      f = genericContainerFinding tc.1 tc.2 := by
  rw [contentCheck_shape] at hf
  cases hfm : firstMaxByCount (contentCandidates s) with
  | none => rw [hfm] at hf; simp at hf
  | some tc =>
      rw [hfm] at hf
      have hf' : f ∈ (if tc.2 > 3 ∧ ¬(tc.1.name = "main" ∨ tc.1.name = "article") then
          ([genericContainerFinding tc.1 tc.2], (15 : Int)) else ([], 0)).1 := hf
      by_cases hcond : tc.2 > 3 ∧ ¬(tc.1.name = "main" ∨ tc.1.name = "article")
      · rw [if_pos hcond] at hf'
        simp only [List.mem_singleton] at hf'
        exact ⟨tc, firstMaxByCount_mem hfm, hcond.1, hcond.2, hf'⟩
      · rw [if_neg hcond] at hf'
        simp at hf'

/-- Every finding of the fake-navigation rule is the fake-nav finding for a
div element of the analyzed forest. -/
theorem navCheck_mem {s : List Node} {f : Finding} (hf : f ∈ (navCheck s).1) :
    ∃ d, d ∈ elemsOfList s ∧ d.name = "div" ∧ f = fakeNavFinding d := by
  unfold navCheck at hf
  rw [navScan_eq] at hf
  cases hd : List.find? navEligible
      ((elemsNavCtxList false s).filter (fun p => p.1.name == "div")) with
  | none => rw [hd] at hf; simp at hf
  | some p =>
      rw [hd] at hf
      simp only [List.mem_singleton] at hf
      have hmem := List.mem_of_find?_eq_some hd
      have hsplit := List.mem_filter.mp hmem
      have hdiv : (p.1.name == "div") = true := hsplit.2
      have hin : p ∈ elemsNavCtxList false s := hsplit.1
      refine ⟨p.1, ?_, by simpa using hdiv, hf⟩
      rw [← elemsNavCtxList_fst false s]
      exact List.mem_map_of_mem Prod.fst hin

/-- Every finding of the alt-text rule is the aggregate missing-alt finding
referencing the first offending image. -/
theorem altCheck_mem {s : List Node} {f : Finding} (hf : f ∈ (altCheck s).1) :
    ∃ n first, first ∈ findAllNamed "img" s ∧ f = missingAltFinding n first := by
  unfold altCheck at hf
  cases hm : (findAllNamed "img" s).filter altMissing with
  | nil => rw [hm] at hf; simp at hf
  | cons m ms =>
      rw [hm] at hf
      simp only [List.mem_singleton] at hf
      refine ⟨ms.length + 1, m, ?_, hf⟩
      exact List.mem_of_mem_filter (hm ▸ List.mem_cons_self m ms)

/-- Every finding of the anchor rule is the aggregate anchors-as-buttons
finding referencing the first offending anchor. -/
theorem anchorCheck_mem {s : List Node} {f : Finding} (hf : f ∈ (anchorCheck s).1) :
    ∃ n first, first ∈ findAllNamed "a" s ∧ f = anchorButtonsFinding n first := by
  unfold anchorCheck at hf
  cases hm : ((findAllNamed "a" s).filter (fun a => (attrVal a "href").isSome)).filter badHref with
  | nil => rw [hm] at hf; simp at hf
  | cons b bs =>
      rw [hm] at hf
      simp only [List.mem_singleton] at hf
      refine ⟨bs.length + 1, b, ?_, hf⟩
      exact List.mem_of_mem_filter (List.mem_of_mem_filter (hm ▸ List.mem_cons_self b bs))

/-! ## Rule references and severities -/

/-- Findings of the hierarchy rule carry reference "WCAG 1.3.1". -/
theorem headingPass_ref {prev : Nat} {hs : List Node} {f : Finding}
    (hf : f ∈ (headingPass prev hs).1) : f.Ref = "WCAG 1.3.1" := by
  rcases headingPass_mem hf with ⟨p, c, h, _, rfl⟩
  rfl

/-- Findings of the H1 rule carry reference "Google SEO Starter Guide" or
"MDN Web Docs". -/
theorem h1Check_ref {l : List Node} {f : Finding} (hf : f ∈ (h1Check l).1) :
    f.Ref = "Google SEO Starter Guide" ∨ f.Ref = "MDN Web Docs" := by
  rcases h1Check_mem hf with ⟨_, rfl⟩ | ⟨x, y, t, _, rfl⟩
  · exact Or.inl rfl
  · exact Or.inr rfl

/-- Findings of the main-content rule carry reference "HTML5 Specification". -/
theorem contentCheck_ref {s : List Node} {f : Finding} (hf : f ∈ (contentCheck s).1) :
    f.Ref = "HTML5 Specification" := by
  rcases contentCheck_mem hf with ⟨tc, _, _, _, rfl⟩
  rfl

/-- Findings of the fake-navigation rule carry reference "WAI-ARIA Landmarks". -/
theorem navCheck_ref {s : List Node} {f : Finding} (hf : f ∈ (navCheck s).1) :
    f.Ref = "WAI-ARIA Landmarks" := by
  rcases navCheck_mem hf with ⟨d, _, _, rfl⟩
  rfl

/-- Findings of the alt-text rule carry reference "WCAG 1.1.1". -/
theorem altCheck_ref {s : List Node} {f : Finding} (hf : f ∈ (altCheck s).1) :
    f.Ref = "WCAG 1.1.1" := by
  rcases altCheck_mem hf with ⟨n, first, _, rfl⟩
  rfl

/-- Findings of the anchor rule carry reference "MDN: Button vs Anchor". -/
theorem anchorCheck_ref {s : List Node} {f : Finding} (hf : f ∈ (anchorCheck s).1) :
    f.Ref = "MDN: Button vs Anchor" := by
  rcases anchorCheck_mem hf with ⟨n, first, _, rfl⟩
  rfl

/-- A reference filter drops a list whose findings all carry another
reference. -/
theorem filterRef_nil {l : List Finding} {c : String} (h : ∀ f ∈ l, ¬ f.Ref = c) :
    l.filter (fun f => f.Ref == c) = [] :=
  List.filter_eq_nil_iff.mpr (fun f hf => by simpa using h f hf)

/-- A reference filter keeps a list whose findings all carry it. -/
theorem filterRef_all {l : List Finding} {c : String} (h : ∀ f ∈ l, f.Ref = c) :
    l.filter (fun f => f.Ref == c) = l :=
  List.filter_eq_self.mpr (fun f hf => by simpa using h f hf)

/-- Transport a known reference along a reference inequality. -/
theorem refNe {f : Finding} {c c' : String} (h : f.Ref = c) (hne : ¬ c = c') :
    ¬ f.Ref = c' := by
  rw [h]
  exact hne

/-! ## Decomposition of the audit output -/

/-- The issues list of `audit_logic` is the concatenation of the six rule
outputs, in source order. -/
theorem audit_findings_decomp (roots : List Node) :
    (audit_logic roots).2.1 =
      (h1Check (findAllNamed "h1" (stripBannedL roots))).1 ++
      (headingPass 0 (headingsOf (stripBannedL roots))).1 ++
      (contentCheck (stripBannedL roots)).1 ++
      (navCheck (stripBannedL roots)).1 ++
      (altCheck (stripBannedL roots)).1 ++
      (anchorCheck (stripBannedL roots)).1 := rfl

/-- The score of `audit_logic` is `max 0 (100 - score_deductions)` with the
deductions accumulated over the six rules in source order. -/
theorem audit_score_decomp (roots : List Node) :
    (audit_logic roots).1 =
      max 0 (100 -
        ((h1Check (findAllNamed "h1" (stripBannedL roots))).2 +
         (headingPass 0 (headingsOf (stripBannedL roots))).2 +
         (contentCheck (stripBannedL roots)).2 +
         (navCheck (stripBannedL roots)).2 +
         (altCheck (stripBannedL roots)).2 +
         (anchorCheck (stripBannedL roots)).2)) := rfl

/-- The headings list `audit_logic` returns is the heading filter of the
stripped forest. -/
theorem audit_headings_decomp (roots : List Node) :
    (audit_logic roots).2.2 = headingsOf (stripBannedL roots) := rfl

/-- Every audit finding comes from one of the six rules, applied to the
stripped forest. -/
theorem audit_findings_mem {roots : List Node} {f : Finding}
    (hf : f ∈ (audit_logic roots).2.1) :
    f ∈ (h1Check (findAllNamed "h1" (stripBannedL roots))).1 ∨
    f ∈ (headingPass 0 (headingsOf (stripBannedL roots))).1 ∨
    f ∈ (contentCheck (stripBannedL roots)).1 ∨
    f ∈ (navCheck (stripBannedL roots)).1 ∨
    f ∈ (altCheck (stripBannedL roots)).1 ∨
    f ∈ (anchorCheck (stripBannedL roots)).1 := by
  rw [audit_findings_decomp] at hf
  simpa [List.mem_append, or_assoc] using hf

/-- Filtering the audit findings for "WCAG 1.3.1" extracts exactly the
hierarchy rule's findings. -/
theorem audit_filter_skip (roots : List Node) :
    ((audit_logic roots).2.1).filter (fun f => f.Ref == "WCAG 1.3.1") =
      (headingPass 0 (headingsOf (stripBannedL roots))).1 := by
  rw [audit_findings_decomp]
  simp only [List.filter_append]
  rw [filterRef_nil (fun f hf => by
        rcases h1Check_ref hf with h | h
        · exact refNe h (by decide)
        · exact refNe h (by decide)),
      filterRef_all (fun f hf => headingPass_ref hf),
      filterRef_nil (fun f hf => refNe (contentCheck_ref hf) (by decide)),
      filterRef_nil (fun f hf => refNe (navCheck_ref hf) (by decide)),
      filterRef_nil (fun f hf => refNe (altCheck_ref hf) (by decide)),
      filterRef_nil (fun f hf => refNe (anchorCheck_ref hf) (by decide))]
  simp

/-- Filtering the audit findings for "HTML5 Specification" extracts exactly
the main-content rule's findings. -/
theorem audit_filter_content (roots : List Node) :
    ((audit_logic roots).2.1).filter (fun f => f.Ref == "HTML5 Specification") =
      (contentCheck (stripBannedL roots)).1 := by
  rw [audit_findings_decomp]
  simp only [List.filter_append]
  rw [filterRef_nil (fun f hf => by
        rcases h1Check_ref hf with h | h
        · exact refNe h (by decide)
        · exact refNe h (by decide)),
      filterRef_nil (fun f hf => refNe (headingPass_ref hf) (by decide)),
      filterRef_all (fun f hf => contentCheck_ref hf),
      filterRef_nil (fun f hf => refNe (navCheck_ref hf) (by decide)),
      filterRef_nil (fun f hf => refNe (altCheck_ref hf) (by decide)),
      filterRef_nil (fun f hf => refNe (anchorCheck_ref hf) (by decide))]
  simp

/-- Filtering the audit findings for "WAI-ARIA Landmarks" extracts exactly
the fake-navigation rule's findings. -/
theorem audit_filter_nav (roots : List Node) :
    ((audit_logic roots).2.1).filter (fun f => f.Ref == "WAI-ARIA Landmarks") =
      (navCheck (stripBannedL roots)).1 := by
  rw [audit_findings_decomp]
  simp only [List.filter_append]
  rw [filterRef_nil (fun f hf => by
        rcases h1Check_ref hf with h | h
        · exact refNe h (by decide)
        · exact refNe h (by decide)),
      filterRef_nil (fun f hf => refNe (headingPass_ref hf) (by decide)),
      filterRef_nil (fun f hf => refNe (contentCheck_ref hf) (by decide)),
      filterRef_all (fun f hf => navCheck_ref hf),
      filterRef_nil (fun f hf => refNe (altCheck_ref hf) (by decide)),
      filterRef_nil (fun f hf => refNe (anchorCheck_ref hf) (by decide))]
  simp

/-- Filtering the audit findings for "MDN: Button vs Anchor" extracts
exactly the anchor rule's findings. -/
theorem audit_filter_anchor (roots : List Node) :
    ((audit_logic roots).2.1).filter (fun f => f.Ref == "MDN: Button vs Anchor") =
      (anchorCheck (stripBannedL roots)).1 := by
  rw [audit_findings_decomp]
  simp only [List.filter_append]
  rw [filterRef_nil (fun f hf => by
        rcases h1Check_ref hf with h | h
        · exact refNe h (by decide)
        · exact refNe h (by decide)),
      filterRef_nil (fun f hf => refNe (headingPass_ref hf) (by decide)),
      filterRef_nil (fun f hf => refNe (contentCheck_ref hf) (by decide)),
      filterRef_nil (fun f hf => refNe (navCheck_ref hf) (by decide)),
      filterRef_nil (fun f hf => refNe (altCheck_ref hf) (by decide)),
      filterRef_all (fun f hf => anchorCheck_ref hf)]
  simp

/-- Filtering the audit findings for "WCAG 1.1.1" extracts exactly the
alt-text rule's findings. -/
theorem audit_filter_alt (roots : List Node) :
    ((audit_logic roots).2.1).filter (fun f => f.Ref == "WCAG 1.1.1") =
      (altCheck (stripBannedL roots)).1 := by
  rw [audit_findings_decomp]
  simp only [List.filter_append]
  rw [filterRef_nil (fun f hf => by
        rcases h1Check_ref hf with h | h
        · exact refNe h (by decide)
        · exact refNe h (by decide)),
      filterRef_nil (fun f hf => refNe (headingPass_ref hf) (by decide)),
      filterRef_nil (fun f hf => refNe (contentCheck_ref hf) (by decide)),
      filterRef_nil (fun f hf => refNe (navCheck_ref hf) (by decide)),
      filterRef_all (fun f hf => altCheck_ref hf),
      filterRef_nil (fun f hf => refNe (anchorCheck_ref hf) (by decide))]
  simp

/-- Filtering the audit findings for "Google SEO Starter Guide" extracts
exactly the Missing-H1 part of the H1 rule's findings. -/
theorem audit_filter_google (roots : List Node) :
    ((audit_logic roots).2.1).filter (fun f => f.Ref == "Google SEO Starter Guide") =
      ((h1Check (findAllNamed "h1" (stripBannedL roots))).1).filter
        (fun f => f.Ref == "Google SEO Starter Guide") := by
  rw [audit_findings_decomp]
  simp only [List.filter_append]
  rw [filterRef_nil (fun f hf => refNe (headingPass_ref hf) (by decide)),
      filterRef_nil (fun f hf => refNe (contentCheck_ref hf) (by decide)),
      filterRef_nil (fun f hf => refNe (navCheck_ref hf) (by decide)),
      filterRef_nil (fun f hf => refNe (altCheck_ref hf) (by decide)),
      filterRef_nil (fun f hf => refNe (anchorCheck_ref hf) (by decide))]
  simp

/-- Filtering the audit findings for "MDN Web Docs" extracts exactly the
Multiple-H1 part of the H1 rule's findings. -/
theorem audit_filter_mdn (roots : List Node) :
    ((audit_logic roots).2.1).filter (fun f => f.Ref == "MDN Web Docs") =
      ((h1Check (findAllNamed "h1" (stripBannedL roots))).1).filter
        (fun f => f.Ref == "MDN Web Docs") := by
  rw [audit_findings_decomp]
  simp only [List.filter_append]
  rw [filterRef_nil (fun f hf => refNe (headingPass_ref hf) (by decide)),
      filterRef_nil (fun f hf => refNe (contentCheck_ref hf) (by decide)),
      filterRef_nil (fun f hf => refNe (navCheck_ref hf) (by decide)),
      filterRef_nil (fun f hf => refNe (altCheck_ref hf) (by decide)),
      filterRef_nil (fun f hf => refNe (anchorCheck_ref hf) (by decide))]
  simp

/-! ## Weights and score -/

/-- The H1 rule's deduction equals the summed weights of its findings. -/
theorem h1Check_wsum (l : List Node) :
    (((h1Check l).1).map findingWeight).sum = (h1Check l).2 := by
  match l with
  | [] => rfl
  | [x] => rfl
  | x :: y :: t => rfl

/-- The H1 rule never deducts a negative amount. -/
theorem h1Check_dpos (l : List Node) : 0 ≤ (h1Check l).2 := by
  match l with
  | [] => decide
  | [x] => exact le_refl 0
  | x :: y :: t => exact (by norm_num : (0 : Int) ≤ 10)

/-- The weight of any skipped-level finding is 5. -/
theorem mkSkipAt_weight (pc : Nat × Node) : findingWeight (mkSkipAt pc) = 5 := rfl

/-- The hierarchy rule's deduction equals the summed weights of its
findings. -/
theorem headingPass_wsum (prev : Nat) (hs : List Node) :
    (((headingPass prev hs).1).map findingWeight).sum = (headingPass prev hs).2 := by
  rw [headingPass_snd, headingPass_fst]
  rw [sum_map_const_of_mem _ findingWeight 5 (fun x hx => by
    rcases List.mem_map.mp hx with ⟨pc, _, rfl⟩
    rfl)]
  simp [mul_comm]

/-- The hierarchy rule never deducts a negative amount. -/
theorem headingPass_dpos (prev : Nat) (hs : List Node) : 0 ≤ (headingPass prev hs).2 := by
  rw [headingPass_snd]
  positivity

/-- The main-content rule's deduction equals the summed weights of its
findings. -/
theorem contentCheck_wsum (s : List Node) :
    (((contentCheck s).1).map findingWeight).sum = (contentCheck s).2 := by
  rw [contentCheck_shape]
  cases firstMaxByCount (contentCandidates s) with
  | none => rfl
  | some tc =>
      by_cases hcond : tc.2 > 3 ∧ ¬(tc.1.name = "main" ∨ tc.1.name = "article")
      · simp only [if_pos hcond]
        rfl
      · simp only [if_neg hcond]
        rfl

/-- The main-content rule never deducts a negative amount. -/
theorem contentCheck_dpos (s : List Node) : 0 ≤ (contentCheck s).2 := by
  rw [contentCheck_shape]
  cases firstMaxByCount (contentCandidates s) with
  | none => decide
  | some tc =>
      by_cases hcond : tc.2 > 3 ∧ ¬(tc.1.name = "main" ∨ tc.1.name = "article")
      · simp only [if_pos hcond]
        exact (by norm_num : (0 : Int) ≤ 15)
      · simp only [if_neg hcond]
        exact le_refl 0

/-- The fake-navigation rule's deduction equals the summed weights of its
findings. -/
theorem navCheck_wsum (s : List Node) :
    (((navCheck s).1).map findingWeight).sum = (navCheck s).2 := by
  unfold navCheck
  rw [navScan_eq]
  cases List.find? navEligible
      ((elemsNavCtxList false s).filter (fun p => p.1.name == "div")) with
  | none => rfl
  | some p => rfl

/-- The fake-navigation rule never deducts a negative amount. -/
theorem navCheck_dpos (s : List Node) : 0 ≤ (navCheck s).2 := by
  unfold navCheck
  rw [navScan_eq]
  cases List.find? navEligible
      ((elemsNavCtxList false s).filter (fun p => p.1.name == "div")) with
  | none => decide
  | some p => exact (by norm_num : (0 : Int) ≤ 5)

/-- The alt-text rule's deduction equals the summed weights of its
findings. -/
theorem altCheck_wsum (s : List Node) :
    (((altCheck s).1).map findingWeight).sum = (altCheck s).2 := by
  unfold altCheck
  cases (findAllNamed "img" s).filter altMissing with
  | nil => rfl
  | cons m ms => rfl

/-- The alt-text rule never deducts a negative amount. -/
theorem altCheck_dpos (s : List Node) : 0 ≤ (altCheck s).2 := by
  unfold altCheck
  cases (findAllNamed "img" s).filter altMissing with
  | nil => decide
  | cons m ms => exact (by norm_num : (0 : Int) ≤ 10)

/-- The anchor rule's deduction equals the summed weights of its findings. -/
theorem anchorCheck_wsum (s : List Node) :
    (((anchorCheck s).1).map findingWeight).sum = (anchorCheck s).2 := by
  unfold anchorCheck
  cases ((findAllNamed "a" s).filter (fun a => (attrVal a "href").isSome)).filter badHref with
  | nil => rfl
  | cons b bs => rfl

/-- The anchor rule never deducts a negative amount. -/
theorem anchorCheck_dpos (s : List Node) : 0 ≤ (anchorCheck s).2 := by
  unfold anchorCheck
  cases ((findAllNamed "a" s).filter (fun a => (attrVal a "href").isSome)).filter badHref with
  | nil => decide
  | cons b bs => exact (by norm_num : (0 : Int) ≤ 5)

/-- The total deduction of an audit run equals the sum of the weights of
the findings it returns. -/
theorem audit_weight_sum (roots : List Node) :
    (((audit_logic roots).2.1).map findingWeight).sum =
      (h1Check (findAllNamed "h1" (stripBannedL roots))).2 +
      (headingPass 0 (headingsOf (stripBannedL roots))).2 +
      (contentCheck (stripBannedL roots)).2 +
      (navCheck (stripBannedL roots)).2 +
      (altCheck (stripBannedL roots)).2 +
      (anchorCheck (stripBannedL roots)).2 := by
  rw [audit_findings_decomp]
  simp only [List.map_append, List.sum_append]
  rw [h1Check_wsum, headingPass_wsum, contentCheck_wsum, navCheck_wsum,
    altCheck_wsum, anchorCheck_wsum]

/-- The total deduction of an audit run is nonnegative. -/
theorem audit_deductions_nonneg (roots : List Node) :
    0 ≤ (h1Check (findAllNamed "h1" (stripBannedL roots))).2 +
      (headingPass 0 (headingsOf (stripBannedL roots))).2 +
      (contentCheck (stripBannedL roots)).2 +
      (navCheck (stripBannedL roots)).2 +
      (altCheck (stripBannedL roots)).2 +
      (anchorCheck (stripBannedL roots)).2 := by
  have h1 := h1Check_dpos (findAllNamed "h1" (stripBannedL roots))
  have h2 := headingPass_dpos 0 (headingsOf (stripBannedL roots))
  have h3 := contentCheck_dpos (stripBannedL roots)
  have h4 := navCheck_dpos (stripBannedL roots)
  have h5 := altCheck_dpos (stripBannedL roots)
  have h6 := anchorCheck_dpos (stripBannedL roots)
  linarith

/-- The audit score always lies in `[0, 100]`. -/
theorem audit_score_bounds (roots : List Node) :
    0 ≤ (audit_logic roots).1 ∧ (audit_logic roots).1 ≤ 100 := by
  rw [audit_score_decomp]
  constructor
  · exact le_max_left 0 _
  · exact max_le (by norm_num) (by linarith [audit_deductions_nonneg roots])

/-! ## Claims -/

/-- Claim C1: for every input forest the analysis returns a valid result —
a score in `[0, 100]` together with findings and headings lists — and
absence of data for a rule (no headings, no images, no anchors, no divs,
no candidate containers) yields no findings from that rule rather than an
error. -/
theorem claim1_total_valid (roots : List Node) :
    0 ≤ (audit_logic roots).1 ∧ (audit_logic roots).1 ≤ 100 ∧
    ((audit_logic roots).2.2 = [] →
      ((audit_logic roots).2.1).filter (fun f => f.Ref == "WCAG 1.3.1") = []) ∧
    (findAllNamed "img" (stripBannedL roots) = [] →
      ((audit_logic roots).2.1).filter (fun f => f.Ref == "WCAG 1.1.1") = []) ∧
    (findAllNamed "a" (stripBannedL roots) = [] →
      ((audit_logic roots).2.1).filter (fun f => f.Ref == "MDN: Button vs Anchor") = []) ∧
    (findAllNamed "div" (stripBannedL roots) = [] →
      ((audit_logic roots).2.1).filter (fun f => f.Ref == "WAI-ARIA Landmarks") = []) ∧
    (contentCandidates (stripBannedL roots) = [] →
      ((audit_logic roots).2.1).filter (fun f => f.Ref == "HTML5 Specification") = []) := by
  refine ⟨(audit_score_bounds roots).1, (audit_score_bounds roots).2, ?_, ?_, ?_, ?_, ?_⟩
  · intro h
    rw [audit_headings_decomp] at h
    rw [audit_filter_skip, h]
    rfl
  · intro h
    rw [audit_filter_alt]
    unfold altCheck
    rw [h]
    rfl
  · intro h
    rw [audit_filter_anchor]
    unfold anchorCheck
    rw [h]
    rfl
  · intro h
    rw [audit_filter_nav]
    unfold navCheck
    have hctx : (elemsNavCtxList false (stripBannedL roots)).filter
        (fun p => p.1.name == "div") = [] := by
      rw [List.filter_eq_nil_iff]
      intro p hp hdiv
      have hmem : p.1 ∈ elemsOfList (stripBannedL roots) := by
        rw [← elemsNavCtxList_fst false (stripBannedL roots)]
        exact List.mem_map_of_mem Prod.fst hp
      have : p.1 ∈ findAllNamed "div" (stripBannedL roots) :=
        List.mem_filter.mpr ⟨hmem, hdiv⟩
      rw [h] at this
      exact absurd this (List.not_mem_nil p.1)
    rw [hctx]
    rfl
  · intro h
    rw [audit_filter_content, contentCheck_shape, h]
    rfl

/-- Claim C1 witness: the empty document has no headings, images, anchors,
divs or candidate containers, and its audit is valid with all those rules
silent. -/
theorem claim1_total_valid_witness :
    0 ≤ (audit_logic []).1 ∧ (audit_logic []).1 ≤ 100 ∧
    ((audit_logic []).2.1).filter (fun f => f.Ref == "WCAG 1.3.1") = [] ∧
    ((audit_logic []).2.1).filter (fun f => f.Ref == "WCAG 1.1.1") = [] ∧
    ((audit_logic []).2.1).filter (fun f => f.Ref == "MDN: Button vs Anchor") = [] ∧
    ((audit_logic []).2.1).filter (fun f => f.Ref == "WAI-ARIA Landmarks") = [] ∧
    ((audit_logic []).2.1).filter (fun f => f.Ref == "HTML5 Specification") = [] := by
  have h := claim1_total_valid []
  exact ⟨h.1, h.2.1, h.2.2.1 rfl, h.2.2.2.1 rfl, h.2.2.2.2.1 rfl,
    h.2.2.2.2.2.1 rfl, h.2.2.2.2.2.2 rfl⟩

/-- Claim C2 counterexample: the empty document does not score 100 and its
findings list is not empty — the Missing-H1 rule fires. -/
theorem claim2_empty_counterexample :
    ¬ ((audit_logic ([] : List Node)).1 = 100 ∧
       (audit_logic ([] : List Node)).2.1 = []) := by
  intro h
  have h1 : (75 : Int) = 100 := h.1
  exact absurd h1 (by decide)

/-- Claim C2 (amended): analyzing the empty document yields score 75 with
exactly one finding — the Critical Missing-H1 finding — and an empty
heading list, with no crash. -/
theorem claim2_empty_amended :
    audit_logic ([] : List Node) = (75, [missingH1Finding], []) := rfl

/-- Claim C3: for every input the score is an integer in `[0, 100]`,
computed as 100 minus the sum of the individual deduction weights of the
returned findings, with a single clamp to 0 applied after summing. -/
theorem claim3_score_formula (roots : List Node) :
    0 ≤ (audit_logic roots).1 ∧ (audit_logic roots).1 ≤ 100 ∧
    (audit_logic roots).1 =
      max 0 (100 - (((audit_logic roots).2.1).map findingWeight).sum) := by
  refine ⟨(audit_score_bounds roots).1, (audit_score_bounds roots).2, ?_⟩
  rw [audit_weight_sum, audit_score_decomp]

/-- Claim C4: the heading-hierarchy check is a single forward pass over the
headings in document order with `prev_level` initialized to 0: a Medium
skipped-level finding referencing the current heading appears exactly at
the consecutive pairs where the previous level is nonzero and the current
level exceeds it by more than one, the previous level being updated at
every heading; in particular `h1, h3, h2` yields exactly the one finding
for `h1 → h3` and a level decrease never fires. -/
theorem claim4_heading_hierarchy :
    (∀ roots : List Node,
      ((audit_logic roots).2.1).filter (fun f => f.Ref == "WCAG 1.3.1") =
        ((((audit_logic roots).2.2).zip ((audit_logic roots).2.2).tail).filter
            skipPairHit).map mkSkipPair) ∧
    ((audit_logic docH1H3H2).2.1).filter (fun f => f.Ref == "WCAG 1.3.1") =
      [skippedLevelFinding 1 3 (Node.elem "h3" [] [Node.text "b"])] := by
  constructor
  · intro roots
    rw [audit_filter_skip, audit_headings_decomp]
    exact headingPass_zero_zip _
  · rfl

/-- Claim C5 counterexample: a document with three `<h1>` elements gets
exactly one aggregate Multiple-H1 finding (showing the count and the second
H1), not one finding per surplus `<h1>`. -/
theorem claim5_h1_counterexample :
    (findAllNamed "h1" (stripBannedL docThreeH1)).length = 3 ∧
    (audit_logic docThreeH1).2.1 =
      [multipleH1Finding 3 (Node.elem "h1" [("id", ["b"])] [Node.text "second"])] := by
  exact ⟨rfl, rfl⟩

/-- Claim C5 (amended): zero `<h1>` yields exactly the Critical Missing-H1
finding, whose deduction weight 25 is strictly the largest weight any audit
finding can carry; more than one `<h1>` yields exactly one aggregate High
finding reporting the count and referencing the second `<h1>` in document
order; exactly one `<h1>` yields neither finding. -/
theorem claim5_h1_rule (roots : List Node) :
    (findingWeight missingH1Finding = 25 ∧
     ∀ f ∈ (audit_logic roots).2.1, ¬ f.Title = "Missing H1 Tag" →
       findingWeight f < 25) ∧
    (findAllNamed "h1" (stripBannedL roots) = [] →
      ((audit_logic roots).2.1).filter
        (fun f => f.Ref == "Google SEO Starter Guide") = [missingH1Finding]) ∧
    (∀ x y t, findAllNamed "h1" (stripBannedL roots) = x :: y :: t →
      ((audit_logic roots).2.1).filter
        (fun f => f.Ref == "MDN Web Docs") = [multipleH1Finding (t.length + 2) y]) ∧
    (∀ x, findAllNamed "h1" (stripBannedL roots) = [x] →
      ((audit_logic roots).2.1).filter
          (fun f => f.Ref == "Google SEO Starter Guide") = [] ∧
      ((audit_logic roots).2.1).filter
          (fun f => f.Ref == "MDN Web Docs") = []) := by
  refine ⟨⟨rfl, ?_⟩, ?_, ?_, ?_⟩
  · intro f hf hT
    rcases audit_findings_mem hf with h | h | h | h | h | h
    · rcases h1Check_mem h with ⟨_, rfl⟩ | ⟨x, y, t, _, rfl⟩
      · exact absurd rfl hT
      · exact (by norm_num : (10 : Int) < 25)
    · rcases headingPass_mem h with ⟨p, c, hh, _, rfl⟩
      exact (by norm_num : (5 : Int) < 25)
    · rcases contentCheck_mem h with ⟨tc, _, _, _, rfl⟩
      exact (by norm_num : (15 : Int) < 25)
    · rcases navCheck_mem h with ⟨d, _, _, rfl⟩
      exact (by norm_num : (5 : Int) < 25)
    · rcases altCheck_mem h with ⟨n, m, _, rfl⟩
      exact (by norm_num : (10 : Int) < 25)
    · rcases anchorCheck_mem h with ⟨n, b, _, rfl⟩
      exact (by norm_num : (5 : Int) < 25)
  · intro h
    rw [audit_filter_google, h]
    rfl
  · intro x y t h
    rw [audit_filter_mdn, h]
    rfl
  · intro x h
    rw [audit_filter_google, audit_filter_mdn, h]
    exact ⟨rfl, rfl⟩

/-- Claim C5 witness: on the three-H1 document the rule emits the single
aggregate finding referencing the second `<h1>`. -/
theorem claim5_h1_rule_witness :
    ((audit_logic docThreeH1).2.1).filter (fun f => f.Ref == "MDN Web Docs") =
      [multipleH1Finding 3 (Node.elem "h1" [("id", ["b"])] [Node.text "second"])] :=
  (claim5_h1_rule docThreeH1).2.2.1
    (Node.elem "h1" [("id", ["a"])] [Node.text "first"])
    (Node.elem "h1" [("id", ["b"])] [Node.text "second"])
    [Node.elem "h1" [("id", ["c"])] [Node.text "third"]] rfl

/-- Claim C6 counterexample: a document whose tree contains no `<main>`
element for which the analysis emits no finding at all — there is no
missing-landmark rule. -/
theorem claim6_landmark_counterexample :
    findAllNamed "main" (stripBannedL docOnlyH1) = [] ∧
    (audit_logic docOnlyH1).2.1 = [] := ⟨rfl, rfl⟩

/-- Claim C6 (amended): the engine has no landmark-presence rule; the only
Critical findings an audit can emit are the Missing-H1 finding and the
generic-main-content-container finding, so the absence of `<main>` alone
never produces a finding. -/
theorem claim6_no_landmark_rule (roots : List Node) :
    ∀ f ∈ (audit_logic roots).2.1, f.Severity = "Critical" →
      f.Title = "Missing H1 Tag" ∨ f.Title = "Generic Container for Main Content" := by
  intro f hf hS
  rcases audit_findings_mem hf with h | h | h | h | h | h
  · rcases h1Check_mem h with ⟨_, rfl⟩ | ⟨x, y, t, _, rfl⟩
    · exact Or.inl rfl
    · exact absurd (show ("High" : String) = "Critical" from hS) (by decide)
  · rcases headingPass_mem h with ⟨p, c, hh, _, rfl⟩
    exact absurd (show ("Medium" : String) = "Critical" from hS) (by decide)
  · rcases contentCheck_mem h with ⟨tc, _, _, _, rfl⟩
    exact Or.inr rfl
  · rcases navCheck_mem h with ⟨d, _, _, rfl⟩
    exact absurd (show ("Medium" : String) = "Critical" from hS) (by decide)
  · rcases altCheck_mem h with ⟨n, m, _, rfl⟩
    exact absurd (show ("High" : String) = "Critical" from hS) (by decide)
  · rcases anchorCheck_mem h with ⟨n, b, _, rfl⟩
    exact absurd (show ("Low" : String) = "Critical" from hS) (by decide)

/-- Claim C6 witness: the empty document's Critical finding is the
Missing-H1 finding, as the amended claim requires. -/
theorem claim6_no_landmark_rule_witness :
    missingH1Finding.Title = "Missing H1 Tag" ∨
    missingH1Finding.Title = "Generic Container for Main Content" :=
  claim6_no_landmark_rule [] missingH1Finding (List.mem_cons_self _ _) rfl

/-- Claim C7 counterexample: a div with four one-character paragraphs has
total descendant paragraph-text length 4 — far below any 300-500 character
threshold — yet the engine emits the Critical generic-container finding,
because it counts `<p>` descendants (4 > 3) instead of measuring text. -/
theorem claim7_metric_counterexample :
    specParagraphTextLength tinyParasDiv = 4 ∧ (4 : Nat) < 300 ∧
    ((audit_logic docTinyParas).2.1).filter (fun f => f.Ref == "HTML5 Specification") =
      [genericContainerFinding tinyParasDiv 4] := by
  exact ⟨rfl, by norm_num, rfl⟩

/-- Claim C7 (amended): the primary-content rule selects, among all
`div`/`section`/`main`/`article` nodes in document order, the one with the
maximum count of `<p>` descendants — first in document order on ties — and
emits exactly one Critical finding referencing that node precisely when
that count exceeds 3 and the selected tag is neither `main` nor `article`. -/
theorem claim7_content_rule (roots : List Node) :
    ((audit_logic roots).2.1).filter (fun f => f.Ref == "HTML5 Specification") =
      (match firstMaxByCount (contentCandidates (stripBannedL roots)) with
        | none => []
        | some tc =>
            if tc.2 > 3 ∧ ¬(tc.1.name = "main" ∨ tc.1.name = "article") then
              [genericContainerFinding tc.1 tc.2]
            else []) := by
  rw [audit_filter_content, contentCheck_shape]
  cases firstMaxByCount (contentCandidates (stripBannedL roots)) with
  | none => rfl
  | some tc =>
      show (if tc.2 > 3 ∧ ¬(tc.1.name = "main" ∨ tc.1.name = "article") then
          ([genericContainerFinding tc.1 tc.2], (15 : Int)) else ([], 0)).1 =
        (if tc.2 > 3 ∧ ¬(tc.1.name = "main" ∨ tc.1.name = "article") then
          [genericContainerFinding tc.1 tc.2] else [])
      by_cases hcond : tc.2 > 3 ∧ ¬(tc.1.name = "main" ∨ tc.1.name = "article")
      · rw [if_pos hcond, if_pos hcond]
      · rw [if_neg hcond, if_neg hcond]

/-- Claim C8: the fake-navigation rule scans the divs in document order and
emits exactly one Medium finding, for the first div whose classes hit the
nav/menu keywords and which has no `<nav>` ancestor; divs inside a `<nav>`
are skipped and all later matches are suppressed. -/
theorem claim8_fake_nav (roots : List Node) :
    ((audit_logic roots).2.1).filter (fun f => f.Ref == "WAI-ARIA Landmarks") =
      (match ((elemsNavCtxList false (stripBannedL roots)).filter
          (fun p => p.1.name == "div")).find? navEligible with
        | none => []
        | some p => [fakeNavFinding p.1]) := by
  rw [audit_filter_nav]
  unfold navCheck
  rw [navScan_eq]
  cases List.find? navEligible
      ((elemsNavCtxList false (stripBannedL roots)).filter (fun p => p.1.name == "div")) with
  | none => rfl
  | some p => rfl

/-- Claim C9 counterexample: an anchor whose `href` attribute is present
but empty is in the document, yet the analysis emits no finding at all —
the rule only flags `href` equal to `#` or `javascript:void(0)`. -/
theorem claim9_anchor_counterexample :
    findAllNamed "a" (stripBannedL docEmptyHref) = [emptyHrefAnchor] ∧
    attrVal emptyHrefAnchor "href" = some "" ∧
    (audit_logic docEmptyHref).2.1 = [] := ⟨rfl, rfl, rfl⟩

/-- Claim C9 (amended): the anchor rule considers only `<a>` elements
carrying an `href` attribute, flags exactly those whose `href` is `#` or
`javascript:void(0)`, and emits a single aggregate Low finding showing the
count and referencing the first offender in document order; no other anchor
is flagged. -/
theorem claim9_anchor_rule (roots : List Node) :
    ((audit_logic roots).2.1).filter (fun f => f.Ref == "MDN: Button vs Anchor") =
      (match ((findAllNamed "a" (stripBannedL roots)).filter
          (fun a => (attrVal a "href").isSome)).filter badHref with
        | [] => []
        | b :: bs => [anchorButtonsFinding (bs.length + 1) b]) := by
  rw [audit_filter_anchor]
  unfold anchorCheck
  cases ((findAllNamed "a" (stripBannedL roots)).filter
      (fun a => (attrVal a "href").isSome)).filter badHref with
  | nil => rfl
  | cons b bs => rfl

/-- Claim C10: before any rule runs, every `script`/`style`/`noscript`/`svg`
subtree is removed: no surviving element carries such a tag, the returned
heading list is computed on the stripped forest only, and every finding's
snippet is either the constant `"<html>"` or the snippet of a node of the
stripped forest. -/
theorem claim10_strip_first (roots : List Node) :
    (∀ n ∈ elemsOfList (stripBannedL roots), ¬ (n.name ∈ bannedTags)) ∧
    (audit_logic roots).2.2 = headingsOf (stripBannedL roots) ∧
    (∀ f ∈ (audit_logic roots).2.1,
      f.Snippet = "<html>" ∨
      ∃ n, n ∈ elemsOfList (stripBannedL roots) ∧ f.Snippet = get_snippet n) := by
  refine ⟨stripBannedL_free roots, rfl, ?_⟩
  intro f hf
  rcases audit_findings_mem hf with h | h | h | h | h | h
  · rcases h1Check_mem h with ⟨_, rfl⟩ | ⟨x, y, t, hl, rfl⟩
    · exact Or.inl rfl
    · right
      have hy : y ∈ (elemsOfList (stripBannedL roots)).filter
          (fun n => n.name == "h1") := by
        rw [show (elemsOfList (stripBannedL roots)).filter (fun n => n.name == "h1") =
            findAllNamed "h1" (stripBannedL roots) from rfl, hl]
        exact List.mem_cons_of_mem x (List.mem_cons_self y t)
      exact ⟨y, List.filter_subset' _ hy, rfl⟩
  · rcases headingPass_mem h with ⟨p, c, hh, hm, rfl⟩
    exact Or.inr ⟨hh, List.filter_subset' _ hm, rfl⟩
  · rcases contentCheck_mem h with ⟨tc, hmem, _, _, rfl⟩
    right
    rcases List.mem_map.mp hmem with ⟨n, hn, heq⟩
    subst heq
    exact ⟨n, List.filter_subset' _ hn, rfl⟩
  · rcases navCheck_mem h with ⟨d, hd, _, rfl⟩
    exact Or.inr ⟨d, hd, rfl⟩
  · rcases altCheck_mem h with ⟨n, m, hm, rfl⟩
    exact Or.inr ⟨m, List.filter_subset' _ hm, rfl⟩
  · rcases anchorCheck_mem h with ⟨n, b, hb, rfl⟩
    exact Or.inr ⟨b, List.filter_subset' _ hb, rfl⟩

/-- Claim C10 witness: on the empty document the Missing-H1 finding's
snippet is the constant `"<html>"` placeholder. -/
theorem claim10_strip_first_witness :
    missingH1Finding.Snippet = "<html>" ∨
    ∃ n, n ∈ elemsOfList (stripBannedL []) ∧ missingH1Finding.Snippet = get_snippet n :=
  (claim10_strip_first []).2.2 missingH1Finding (List.mem_cons_self _ _)
